import Mathlib

/-!
Shallow embedding of the EEPROM wear-levelling core
(`src/wear_levelling.c`, `src/wear_levelling.h`, `src/config.h`).

The EEPROM is modelled as a byte-addressable memory `Mem : Nat → Nat`.
The transport primitives `eeprom_write` / `eeprom_read` act on it directly;
in addition every core operation returns the ordered list of transport
writes it issues (`WriteOp`), so that ordering and frame properties can be
stated.  The user-supplied checksum `calculate_crc16` is an arbitrary
function parameter `crc16 : List Nat → Nat`.

`struct_data_t` is 66 bytes: `uint8_t data[64]` followed by a little-endian
`uint16_t crc` at byte offset 64 (`RECORD_SIZE = 66`).  The staging record
of `eeprom_sector_load` is a 66-byte list; reading `size` bytes into it
overwrites its first `size` bytes, and its `crc` field is decoded from
bytes 64 and 65.
-/

/-- A byte-addressable memory: address to byte value. -/
def Mem : Type := Nat → Nat

/-- `SECTOR_INACTIVE` from the source. -/
def SECTOR_INACTIVE : Nat := 0

/-- `SECTOR_ACTIVE` from the source. -/
def SECTOR_ACTIVE : Nat := 1

/-- `NUMBER_OF_SECTORS` from the source. -/
def NUMBER_OF_SECTORS : Nat := 4

/-- `sizeof(struct_data_t)`: 64 data bytes plus a 2-byte CRC field. -/
def RECORD_SIZE : Nat := 66

/-- `sector_status_address` table from the source. -/
def sector_status_address (i : Nat) : Nat :=
  [0x0000, 0x1000, 0x2000, 0x3000].getD i 0

/-- `sector_address` table from the source. -/
def sector_address (i : Nat) : Nat :=
  [0x0002, 0x1002, 0x2002, 0x3002].getD i 0

/-- One transport write: `eeprom_write(i2c, addr, data, data.length)`. -/
structure WriteOp where
  addr : Nat
  data : List Nat
deriving DecidableEq

/-- Effect of `eeprom_write(i2c, address, data, size)` on the memory. -/
def eeprom_write (mem : Mem) (address : Nat) (data : List Nat) : Mem :=
  fun a => if address ≤ a ∧ a < address + data.length then data.getD (a - address) 0 else mem a

/-- `eeprom_read(i2c, address, dst, size)`: the `size` bytes starting at `address`. -/
def eeprom_read (mem : Mem) (address : Nat) (size : Nat) : List Nat :=
  (List.range size).map fun i => mem (address + i)

/-- Apply a list of transport writes to the memory, first element first. -/
def applyWrites (mem : Mem) : List WriteOp → Mem
  | [] => mem
  | w :: ws => applyWrites (eeprom_write mem w.addr w.data) ws

/-- Transport writes issued by `setting_sector_clear(i2c, sector)`:
status = `SECTOR_INACTIVE` to the status address, then
`sizeof(empty_sector)` = 66 zero bytes to the payload address. -/
def setting_sector_clear_trace (sector : Nat) : List WriteOp :=
  [⟨sector_status_address sector, [SECTOR_INACTIVE]⟩,
   ⟨sector_address sector, List.replicate RECORD_SIZE 0⟩]

/-- Effect of `setting_sector_clear(i2c, sector)` on the memory. -/
def setting_sector_clear (mem : Mem) (sector : Nat) : Mem :=
  applyWrites mem (setting_sector_clear_trace sector)

/-- Transport writes issued by `eeprom_all_sectors_clear(i2c)`: the loop body
names `setting_system_state_clear`, an identifier declared nowhere in the
repository; per the header documentation the intended callee is
`setting_sector_clear`, invoked for every sector `0..NUMBER_OF_SECTORS-1`
in ascending order, and it is modelled as such. -/
def eeprom_all_sectors_clear_trace : List WriteOp :=
  ((List.range NUMBER_OF_SECTORS).map setting_sector_clear_trace).flatten

/-- Effect of `eeprom_all_sectors_clear(i2c)` on the memory. -/
def eeprom_all_sectors_clear (mem : Mem) : Mem :=
  applyWrites mem eeprom_all_sectors_clear_trace

/-- `eeprom_read(i2c, addr, &sector, size)` into the staging record:
the read bytes overwrite the first `size` bytes of the record. -/
def readRecord (sector : List Nat) (bytes : List Nat) : List Nat :=
  bytes ++ sector.drop bytes.length

/-- The `crc` field of the staging record: `uint16_t` at byte offset 64,
little-endian. -/
def struct_crc (sector : List Nat) : Nat :=
  sector.getD 64 0 + 256 * sector.getD 65 0

/-- Result of `eeprom_sector_load`: the returned sector index, the caller's
buffer after the call, and the transport writes issued. -/
structure LoadResult where
  ret : Nat
  out : List Nat
  trace : List WriteOp
deriving DecidableEq

/-- The scan loop of `eeprom_sector_load`, over the remaining sector indices,
carrying the staging record `sector`.  An active sector is read into the
staging record and its CRC checked (`calculate_crc16(&sector, size-2) ==
sector.crc`); on success the record is copied into the caller's buffer
(`memcpy(buffer, &sector, size)`) and the index returned with no writes.
When the loop exhausts all sectors, the bootstrap path clears all sectors,
activates sector 0 and writes the first `size` bytes of the staging record
to sector 0's payload address. -/
def sectorLoadLoop (crc16 : List Nat → Nat) (mem : Mem) (buffer : List Nat)
    (size : Nat) : List Nat → List Nat → LoadResult
  | sector, [] =>
    ⟨0, buffer,
      eeprom_all_sectors_clear_trace ++
        [⟨sector_status_address 0, [SECTOR_ACTIVE]⟩,
         ⟨sector_address 0, sector.take size⟩]⟩
  | sector, i :: rest =>
    if mem (sector_status_address i) = SECTOR_ACTIVE then
      if crc16 ((readRecord sector (eeprom_read mem (sector_address i) size)).take (size - 2)) =
          struct_crc (readRecord sector (eeprom_read mem (sector_address i) size)) then
        ⟨i, (readRecord sector (eeprom_read mem (sector_address i) size)).take size ++
            buffer.drop size, []⟩
      else
        sectorLoadLoop crc16 mem buffer size
          (readRecord sector (eeprom_read mem (sector_address i) size)) rest
    else sectorLoadLoop crc16 mem buffer size sector rest

/-- `eeprom_sector_load(i2c, buffer, size)`: staging record zero-initialized
(`struct_data_t sector = {0}`), sectors scanned in order `0..3`. -/
def eeprom_sector_load (crc16 : List Nat → Nat) (mem : Mem) (buffer : List Nat)
    (size : Nat) : LoadResult :=
  sectorLoadLoop crc16 mem buffer size (List.replicate RECORD_SIZE 0)
    (List.range NUMBER_OF_SECTORS)

/-- Result of `eeprom_sector_write`: returned index and issued writes. -/
structure WriteResult where
  ret : Nat
  trace : List WriteOp
deriving DecidableEq

/-- `eeprom_sector_write(i2c, buffer, size, current_sector)`: deactivate the
current sector, activate `(current_sector + 1) % NUMBER_OF_SECTORS`, write
`size` bytes of the buffer to the new sector's payload address, return the
new index. -/
def eeprom_sector_write (buffer : List Nat) (size : Nat) (current_sector : Nat) :
    WriteResult :=
  let next := (current_sector + 1) % NUMBER_OF_SECTORS
  ⟨next,
   [⟨sector_status_address current_sector, [SECTOR_INACTIVE]⟩,
    ⟨sector_status_address next, [SECTOR_ACTIVE]⟩,
    ⟨sector_address next, buffer.take size⟩]⟩

/-- A sector's status byte equals `SECTOR_ACTIVE`. -/
def slotActive (mem : Mem) (i : Nat) : Prop :=
  mem (sector_status_address i) = SECTOR_ACTIVE

instance (mem : Mem) (i : Nat) : Decidable (slotActive mem i) := by
  unfold slotActive; infer_instance

/-- The staging record after reading sector `i`'s payload: the `size` read
bytes followed by the bytes of the zero-initialized record beyond `size`. -/
def slotRecord (mem : Mem) (i : Nat) (size : Nat) : List Nat :=
  eeprom_read mem (sector_address i) size ++ List.replicate (RECORD_SIZE - size) 0

/-- The CRC check `eeprom_sector_load` performs on sector `i`:
`calculate_crc16(&sector, size - 2) == sector.crc` on the staging record. -/
def slotValid (crc16 : List Nat → Nat) (mem : Mem) (i : Nat) (size : Nat) : Prop :=
  crc16 ((slotRecord mem i size).take (size - 2)) = struct_crc (slotRecord mem i size)

instance (crc16 : List Nat → Nat) (mem : Mem) (i : Nat) (size : Nat) :
    Decidable (slotValid crc16 mem i size) := by
  unfold slotValid; infer_instance

/-- Sector `i` is active and passes the load-time CRC check. -/
def slotFound (crc16 : List Nat → Nat) (mem : Mem) (i : Nat) (size : Nat) : Prop :=
  slotActive mem i ∧ slotValid crc16 mem i size

instance (crc16 : List Nat → Nat) (mem : Mem) (i : Nat) (size : Nat) :
    Decidable (slotFound crc16 mem i size) := by
  unfold slotFound; infer_instance

/-! ### Basic lemmas about the memory model -/

theorem eeprom_read_length (mem : Mem) (a n : Nat) : (eeprom_read mem a n).length = n := by
  simp [eeprom_read]

theorem getD_replicate_zero (n i : Nat) : (List.replicate n (0 : Nat)).getD i 0 = 0 := by
  induction n generalizing i with
  | zero => cases i <;> rfl
  | succ m ih => cases i with
    | zero => rfl
    | succ j => simp [List.replicate_succ, ih j]

theorem drop_replicate_zero (n i : Nat) :
    (List.replicate n (0 : Nat)).drop i = List.replicate (n - i) 0 := by
  induction n generalizing i with
  | zero => simp
  | succ m ih =>
    cases i with
    | zero => simp
    | succ j => simp [List.replicate_succ, ih j]

theorem eeprom_write_at (mem : Mem) (addr : Nat) (data : List Nat) (a : Nat)
    (h1 : addr ≤ a) (h2 : a < addr + data.length) :
    eeprom_write mem addr data a = data.getD (a - addr) 0 := by
  simp [eeprom_write, h1, h2]

theorem eeprom_write_away (mem : Mem) (addr : Nat) (data : List Nat) (a : Nat)
    (h : a < addr ∨ addr + data.length ≤ a) :
    eeprom_write mem addr data a = mem a := by
  unfold eeprom_write
  rcases h with h | h
  · rw [if_neg]; rintro ⟨h1, -⟩; omega
  · rw [if_neg]; rintro ⟨-, h2⟩; omega

theorem read_after_write_exact (mem : Mem) (addr : Nat) (data : List Nat) (n : Nat)
    (h : data.length = n) :
    eeprom_read (eeprom_write mem addr data) addr n = data := by
  apply List.ext_getElem
  · simp [eeprom_read, h]
  · intro i h1 h2
    simp only [eeprom_read, List.getElem_map, List.getElem_range]
    rw [eeprom_write_at _ _ _ _ (Nat.le_add_right _ _) (by omega),
      Nat.add_sub_cancel_left, List.getD_eq_getElem]

theorem read_write_disjoint (mem : Mem) (addr : Nat) (data : List Nat) (b n : Nat)
    (h : b + n ≤ addr ∨ addr + data.length ≤ b) :
    eeprom_read (eeprom_write mem addr data) b n = eeprom_read mem b n := by
  unfold eeprom_read
  apply List.map_congr_left
  intro i hi
  rw [List.mem_range] at hi
  exact eeprom_write_away _ _ _ _ (by omega)

/-! ### The scan loop of `eeprom_sector_load` -/

theorem slotRecord_drop (mem : Mem) (i size : Nat) :
    (slotRecord mem i size).drop size = List.replicate (RECORD_SIZE - size) 0 :=
  List.drop_left' (eeprom_read_length mem (sector_address i) size)

theorem readRecord_slotRecord (mem : Mem) (i size : Nat) (sector : List Nat)
    (hs : sector.drop size = List.replicate (RECORD_SIZE - size) 0) :
    readRecord sector (eeprom_read mem (sector_address i) size) = slotRecord mem i size := by
  unfold readRecord slotRecord
  rw [eeprom_read_length, hs]

/-- When the first index of the scan list that is active with a valid CRC is
`i`, the loop returns `i`, copies the staging record over the first `size`
bytes of the caller's buffer, and issues no transport writes. -/
theorem sectorLoadLoop_first (crc16 : List Nat → Nat) (mem : Mem) (buffer : List Nat)
    (size : Nat) (l1 : List Nat) (i : Nat) (l2 : List Nat) (sector : List Nat)
    (hs : sector.drop size = List.replicate (RECORD_SIZE - size) 0)
    (hskip : ∀ k ∈ l1, ¬ slotFound crc16 mem k size)
    (hi : slotFound crc16 mem i size) :
    sectorLoadLoop crc16 mem buffer size sector (l1 ++ i :: l2) =
      ⟨i, (slotRecord mem i size).take size ++ buffer.drop size, []⟩ := by
  induction l1 generalizing sector with
  | nil =>
    have h1 : mem (sector_status_address i) = SECTOR_ACTIVE := hi.1
    have h2 : crc16 ((slotRecord mem i size).take (size - 2)) =
        struct_crc (slotRecord mem i size) := hi.2
    rw [List.nil_append]
    unfold sectorLoadLoop
    rw [if_pos h1, readRecord_slotRecord mem i size sector hs, if_pos h2]
  | cons k l1 ih =>
    rw [List.cons_append]
    unfold sectorLoadLoop
    by_cases hk : mem (sector_status_address k) = SECTOR_ACTIVE
    · rw [if_pos hk, readRecord_slotRecord mem k size sector hs]
      have hnv : ¬ (crc16 ((slotRecord mem k size).take (size - 2)) =
          struct_crc (slotRecord mem k size)) := by
        intro hv
        exact hskip k (List.mem_cons_self k l1) ⟨hk, hv⟩
      rw [if_neg hnv]
      exact ih (slotRecord mem k size) (slotRecord_drop mem k size)
        (fun j hj => hskip j (List.mem_cons_of_mem k hj))
    · rw [if_neg hk]
      exact ih sector hs (fun j hj => hskip j (List.mem_cons_of_mem k hj))

/-- The staging record at the end of the scan loop: the record of the last
active sector in the scan list, or the incoming staging record when no
visited sector was active. -/
def stagingAfter (mem : Mem) (size : Nat) (sector : List Nat) (l : List Nat) : List Nat :=
  match (l.filter fun i => decide (slotActive mem i)).getLast? with
  | some i => slotRecord mem i size
  | none => sector

/-- When no index of the scan list is active with a valid CRC, the loop takes
the bootstrap path: clear all sectors, activate sector 0, write the final
staging record to sector 0's payload, return 0 with the buffer untouched. -/
theorem sectorLoadLoop_none (crc16 : List Nat → Nat) (mem : Mem) (buffer : List Nat)
    (size : Nat) (l : List Nat) (sector : List Nat)
    (hs : sector.drop size = List.replicate (RECORD_SIZE - size) 0)
    (h : ∀ k ∈ l, ¬ slotFound crc16 mem k size) :
    sectorLoadLoop crc16 mem buffer size sector l =
      ⟨0, buffer,
        eeprom_all_sectors_clear_trace ++
          [⟨sector_status_address 0, [SECTOR_ACTIVE]⟩,
           ⟨sector_address 0, (stagingAfter mem size sector l).take size⟩]⟩ := by
  induction l generalizing sector with
  | nil => rfl
  | cons k l ih =>
    unfold sectorLoadLoop
    by_cases hk : mem (sector_status_address k) = SECTOR_ACTIVE
    · rw [if_pos hk, readRecord_slotRecord mem k size sector hs]
      have hnv : ¬ (crc16 ((slotRecord mem k size).take (size - 2)) =
          struct_crc (slotRecord mem k size)) := by
        intro hv
        exact h k (List.mem_cons_self k l) ⟨hk, hv⟩
      rw [if_neg hnv,
        ih (slotRecord mem k size) (slotRecord_drop mem k size)
          (fun j hj => h j (List.mem_cons_of_mem k hj))]
      have hfil : (k :: l).filter (fun i => decide (slotActive mem i)) =
          k :: l.filter (fun i => decide (slotActive mem i)) := by
        rw [List.filter_cons_of_pos]
        simpa [slotActive] using hk
      unfold stagingAfter
      rw [hfil]
      cases hcase : l.filter (fun i => decide (slotActive mem i)) with
      | nil => simp
      | cons b bs =>
        rw [List.getLast?_cons_cons]
        cases hgl : (b :: bs).getLast? with
        | none => simp at hgl
        | some x => rfl
    · rw [if_neg hk,
        ih sector hs (fun j hj => h j (List.mem_cons_of_mem k hj))]
      have hfil : (k :: l).filter (fun i => decide (slotActive mem i)) =
          l.filter (fun i => decide (slotActive mem i)) := by
        rw [List.filter_cons_of_neg]
        simpa [slotActive] using hk
      unfold stagingAfter
      rw [hfil]

theorem range_four_split (i : Nat) (hi : i < 4) :
    List.range 4 = List.range i ++ i :: (List.range (3 - i)).map (fun t => i + 1 + t) := by
  have h1 : List.range 4 = List.range (i + (4 - i)) := by congr 1; omega
  rw [h1, List.range_add]
  congr 1
  have h2 : 4 - i = (3 - i) + 1 := by
    omega
  rw [h2, List.range_succ_eq_map, List.map_cons]
  congr 1
  rw [List.map_map]
  apply List.map_congr_left
  intro t ht
  simp [Nat.succ_eq_add_one]
  omega

/-- `eeprom_sector_load` when the least active-and-valid sector index is `i`:
it returns `i`, overwrites the first `size` bytes of the caller's buffer with
the staging record, and issues no transport writes. -/
theorem load_found_spec (crc16 : List Nat → Nat) (mem : Mem) (buffer : List Nat)
    (size i : Nat) (hi4 : i < NUMBER_OF_SECTORS)
    (hfound : slotFound crc16 mem i size)
    (hmin : ∀ k < i, ¬ slotFound crc16 mem k size) :
    eeprom_sector_load crc16 mem buffer size =
      ⟨i, (slotRecord mem i size).take size ++ buffer.drop size, []⟩ := by
  unfold eeprom_sector_load
  rw [show List.range NUMBER_OF_SECTORS =
      List.range i ++ i :: (List.range (3 - i)).map (fun t => i + 1 + t) from
    range_four_split i hi4]
  exact sectorLoadLoop_first crc16 mem buffer size (List.range i) i _ _
    (drop_replicate_zero RECORD_SIZE size)
    (fun k hk => hmin k (List.mem_range.mp hk)) hfound

/-- The staging record at the end of a full failed scan of a device:
the record of the last active sector, or all zeros when no sector is active. -/
def bootstrapRecord (mem : Mem) (size : Nat) : List Nat :=
  stagingAfter mem size (List.replicate RECORD_SIZE 0) (List.range NUMBER_OF_SECTORS)

/-- `eeprom_sector_load` when no sector is active with a valid CRC:
the bootstrap path clears all sectors, activates sector 0, writes the final
staging record to sector 0's payload, and returns 0 leaving the caller's
buffer untouched. -/
theorem load_none_spec (crc16 : List Nat → Nat) (mem : Mem) (buffer : List Nat)
    (size : Nat) (h : ∀ k < NUMBER_OF_SECTORS, ¬ slotFound crc16 mem k size) :
    eeprom_sector_load crc16 mem buffer size =
      ⟨0, buffer,
        eeprom_all_sectors_clear_trace ++
          [⟨sector_status_address 0, [SECTOR_ACTIVE]⟩,
           ⟨sector_address 0, (bootstrapRecord mem size).take size⟩]⟩ := by
  unfold eeprom_sector_load bootstrapRecord
  exact sectorLoadLoop_none crc16 mem buffer size (List.range NUMBER_OF_SECTORS)
    (List.replicate RECORD_SIZE 0) (drop_replicate_zero RECORD_SIZE size)
    (fun k hk => h k (List.mem_range.mp hk))

/-- With no active sector at all, the bootstrap staging record is all zeros. -/
theorem bootstrapRecord_of_no_active (mem : Mem) (size : Nat)
    (h : ∀ i < NUMBER_OF_SECTORS, ¬ slotActive mem i) :
    bootstrapRecord mem size = List.replicate RECORD_SIZE 0 := by
  unfold bootstrapRecord stagingAfter
  have hfil : (List.range NUMBER_OF_SECTORS).filter (fun i => decide (slotActive mem i)) = [] := by
    rw [List.filter_eq_nil_iff]
    intro a ha
    simpa using h a (List.mem_range.mp ha)
  rw [hfil]
  rfl

/-! ### Effect of `eeprom_sector_write` on the memory -/

theorem sector_status_address_eq (i : Nat) (hi : i < 4) :
    sector_status_address i = 4096 * i := by
  interval_cases i <;> rfl

theorem sector_address_eq (i : Nat) (hi : i < 4) :
    sector_address i = 4096 * i + 2 := by
  interval_cases i <;> rfl

/-- The status byte of sector `j` after `eeprom_sector_write(buffer, size, cs)`:
the new sector `(cs+1) % 4` is active, the old sector `cs` inactive, all other
status bytes untouched. -/
theorem write_mem_status (mem : Mem) (B : List Nat) (size cs j : Nat)
    (hcs : cs < 4) (hj : j < 4) (hsz : size ≤ 4094) :
    applyWrites mem (eeprom_sector_write B size cs).trace (sector_status_address j) =
      if j = (cs + 1) % NUMBER_OF_SECTORS then SECTOR_ACTIVE
      else if j = cs then SECTOR_INACTIVE
      else mem (sector_status_address j) := by
  have hn4 : (cs + 1) % NUMBER_OF_SECTORS < 4 := Nat.mod_lt _ (by decide)
  have hne : (cs + 1) % NUMBER_OF_SECTORS ≠ cs := by
    unfold NUMBER_OF_SECTORS
    omega
  have hlen3 : (B.take size).length ≤ 4094 := by
    rw [List.length_take]
    omega
  unfold eeprom_sector_write
  simp only [applyWrites]
  rw [eeprom_write_away _ _ _ _ (by
    rw [sector_status_address_eq j hj, sector_address_eq _ hn4]
    omega)]
  by_cases hjn : j = (cs + 1) % NUMBER_OF_SECTORS
  · subst hjn
    rw [eeprom_write_at _ _ _ _ (Nat.le_refl _) (by simp), if_pos rfl]
    simp
  · rw [eeprom_write_away _ _ _ _ (by
      rw [sector_status_address_eq j hj, sector_status_address_eq _ hn4]
      simp only [List.length_cons, List.length_nil]
      have : j ≠ (cs + 1) % NUMBER_OF_SECTORS := hjn
      omega), if_neg hjn]
    by_cases hjc : j = cs
    · subst hjc
      rw [eeprom_write_at _ _ _ _ (Nat.le_refl _) (by simp), if_pos rfl]
      simp
    · rw [eeprom_write_away _ _ _ _ (by
        rw [sector_status_address_eq j hj, sector_status_address_eq cs hcs]
        simp only [List.length_cons, List.length_nil]
        omega), if_neg hjc]

/-- After `eeprom_sector_write(buffer, size, cs)`, reading `size` bytes from
the new sector's payload address gives back the first `size` buffer bytes. -/
theorem write_mem_payload (mem : Mem) (B : List Nat) (size cs : Nat)
    (hlen : size ≤ B.length) :
    eeprom_read (applyWrites mem (eeprom_sector_write B size cs).trace)
      (sector_address ((cs + 1) % NUMBER_OF_SECTORS)) size = B.take size := by
  unfold eeprom_sector_write
  simp only [applyWrites]
  exact read_after_write_exact _ _ _ _ (by rw [List.length_take]; omega)

/-- The staging record read back from the new sector after a write. -/
theorem write_slotRecord (mem : Mem) (B : List Nat) (size cs : Nat)
    (hlen : size ≤ B.length) :
    slotRecord (applyWrites mem (eeprom_sector_write B size cs).trace)
      ((cs + 1) % NUMBER_OF_SECTORS) size =
      B.take size ++ List.replicate (RECORD_SIZE - size) 0 := by
  unfold slotRecord
  rw [write_mem_payload mem B size cs hlen]

/-- A record of full length `RECORD_SIZE` read back unchanged. -/
theorem slotRecord_full (mem : Mem) (B : List Nat) (cs : Nat)
    (hlen : B.length = RECORD_SIZE) :
    slotRecord (applyWrites mem (eeprom_sector_write B RECORD_SIZE cs).trace)
      ((cs + 1) % NUMBER_OF_SECTORS) RECORD_SIZE = B := by
  rw [write_slotRecord mem B RECORD_SIZE cs (Nat.le_of_eq hlen.symm)]
  simp [List.take_of_length_le (Nat.le_of_eq hlen)]

/-- After a write from the unique active sector `cs`, the unique active
sector is `(cs + 1) % NUMBER_OF_SECTORS`. -/
theorem write_active_iff (mem : Mem) (B : List Nat) (size cs : Nat)
    (hcs : cs < NUMBER_OF_SECTORS) (hsz : size ≤ 4094)
    (hone : ∀ j < NUMBER_OF_SECTORS, slotActive mem j ↔ j = cs) :
    ∀ j < NUMBER_OF_SECTORS,
      slotActive (applyWrites mem (eeprom_sector_write B size cs).trace) j ↔
        j = (cs + 1) % NUMBER_OF_SECTORS := by
  intro j hj
  unfold slotActive
  rw [write_mem_status mem B size cs j hcs hj hsz]
  by_cases h1 : j = (cs + 1) % NUMBER_OF_SECTORS
  · rw [if_pos h1]
    simp [h1]
  · rw [if_neg h1]
    by_cases h2 : j = cs
    · subst h2
      rw [if_pos rfl]
      simp only [SECTOR_INACTIVE, SECTOR_ACTIVE]
      constructor
      · intro h0
        exact absurd h0 (by decide)
      · intro hx
        exact absurd hx h1
    · rw [if_neg h2]
      have hj2 := hone j hj
      unfold slotActive at hj2
      rw [hj2]
      constructor
      · intro hx
        exact absurd hx h2
      · intro hx
        exact absurd hx h1

/-- After a write of a full record whose trailing 2 bytes encode the CRC of
its first 64 bytes, the new sector passes the load-time CRC check. -/
theorem write_valid_next (crc16 : List Nat → Nat) (mem : Mem) (B : List Nat) (cs : Nat)
    (hlen : B.length = RECORD_SIZE)
    (hcrc : B.getD 64 0 + 256 * B.getD 65 0 = crc16 (B.take (RECORD_SIZE - 2))) :
    slotValid crc16 (applyWrites mem (eeprom_sector_write B RECORD_SIZE cs).trace)
      ((cs + 1) % NUMBER_OF_SECTORS) RECORD_SIZE := by
  unfold slotValid
  rw [slotRecord_full mem B cs hlen]
  unfold struct_crc
  exact hcrc.symm

/-- C2 (claim): for every `current_sector` in `0..N-1`, `eeprom_sector_write`
issues exactly three transport writes in this order — status = inactive to
`current_sector`'s status address, status = active to
`(current_sector+1) % N`'s status address, then the `size` buffer bytes to
`(current_sector+1) % N`'s payload address — and returns
`(current_sector+1) % N`. -/
theorem write_issues_ordered_trace (B : List Nat) (size cs : Nat)
    (_hcs : cs < NUMBER_OF_SECTORS) (hlen : size ≤ B.length) :
    (eeprom_sector_write B size cs).trace =
      [⟨sector_status_address cs, [SECTOR_INACTIVE]⟩,
       ⟨sector_status_address ((cs + 1) % NUMBER_OF_SECTORS), [SECTOR_ACTIVE]⟩,
       ⟨sector_address ((cs + 1) % NUMBER_OF_SECTORS), B.take size⟩] ∧
    (B.take size).length = size ∧
    (eeprom_sector_write B size cs).ret = (cs + 1) % NUMBER_OF_SECTORS := by
  refine ⟨rfl, ?_, rfl⟩
  rw [List.length_take]
  omega

/-- C3 (claim): `eeprom_sector_load` scans the sectors in ascending order,
skips every sector that is not active with a valid CRC, and returns the first
index that is active and validates, copying the `size` payload bytes read
from that sector over the start of the caller's buffer.  In particular, when
several active sectors validate, the lowest index is returned. -/
theorem load_returns_first_active_valid (crc16 : List Nat → Nat) (mem : Mem)
    (buffer : List Nat) (size i : Nat) (_h2 : 2 ≤ size) (_h66 : size ≤ RECORD_SIZE)
    (hi : i < NUMBER_OF_SECTORS)
    (hfound : slotFound crc16 mem i size)
    (hmin : ∀ k < i, ¬ slotFound crc16 mem k size) :
    (eeprom_sector_load crc16 mem buffer size).ret = i ∧
    (eeprom_sector_load crc16 mem buffer size).out =
      eeprom_read mem (sector_address i) size ++ buffer.drop size := by
  rw [load_found_spec crc16 mem buffer size i hi hfound hmin]
  refine ⟨rfl, ?_⟩
  show (slotRecord mem i size).take size ++ buffer.drop size = _
  unfold slotRecord
  rw [List.take_left' (eeprom_read_length mem (sector_address i) size)]

/-- C10 (claim): whenever `eeprom_sector_load` finds an active sector that
validates, it issues no transport writes at all, so every byte of the device
is left exactly as it was. -/
theorem load_valid_path_no_writes (crc16 : List Nat → Nat) (mem : Mem)
    (buffer : List Nat) (size : Nat) (_h2 : 2 ≤ size) (_h66 : size ≤ RECORD_SIZE)
    (h : ∃ i, i < NUMBER_OF_SECTORS ∧ slotFound crc16 mem i size) :
    (eeprom_sector_load crc16 mem buffer size).trace = [] ∧
    ∀ a, applyWrites mem (eeprom_sector_load crc16 mem buffer size).trace a = mem a := by
  obtain ⟨j, hj4, hjf⟩ := h
  have hex : ∃ n, slotFound crc16 mem n size := ⟨j, hjf⟩
  have hmin : ∀ k < Nat.find hex, ¬ slotFound crc16 mem k size :=
    fun k hk => Nat.find_min hex hk
  have hlt : Nat.find hex < NUMBER_OF_SECTORS :=
    Nat.lt_of_le_of_lt (Nat.find_min' hex hjf) hj4
  rw [load_found_spec crc16 mem buffer size _ hlt (Nat.find_spec hex) hmin]
  exact ⟨rfl, fun a => rfl⟩

/-! ### Bootstrap path: C4 and C5 -/

/-- C4 (amended): when no active sector validates, `eeprom_sector_load`
invokes the clear-all sequence, writes status = active to sector 0, writes
the first `size` bytes of the *current staging record* to sector 0's payload
address, and returns 0.  The staging record is all zeros when no sector was
active; when some active sector was read but failed the CRC check, it holds
that sector's bytes instead of zeros. -/
theorem load_bootstrap_writes_staging (crc16 : List Nat → Nat) (mem : Mem)
    (buffer : List Nat) (size : Nat) (_h2 : 2 ≤ size) (_h66 : size ≤ RECORD_SIZE)
    (h : ∀ i < NUMBER_OF_SECTORS, ¬ slotFound crc16 mem i size) :
    (eeprom_sector_load crc16 mem buffer size).ret = 0 ∧
    (eeprom_sector_load crc16 mem buffer size).trace =
      eeprom_all_sectors_clear_trace ++
        [⟨sector_status_address 0, [SECTOR_ACTIVE]⟩,
         ⟨sector_address 0, (bootstrapRecord mem size).take size⟩] ∧
    ((∀ i < NUMBER_OF_SECTORS, ¬ slotActive mem i) →
      bootstrapRecord mem size = List.replicate RECORD_SIZE 0) := by
  rw [load_none_spec crc16 mem buffer size h]
  exact ⟨rfl, rfl, fun hna => bootstrapRecord_of_no_active mem size hna⟩

/-- Demonstration checksum standing in for the deployment's `calculate_crc16`
(any fixed 16-bit checksum satisfies the integrity contract). -/
def crcDemo : List Nat → Nat := fun l => (l.foldl (· + ·) 1) % 65536

/-- A device whose sector 0 is active with payload byte 5 and a stored CRC
field of 0, which fails the `crcDemo` check. -/
def memActiveBadCrc : Mem := eeprom_write (eeprom_write (fun _ => 0) 0 [1]) 2 [5]

/-- C4 (counterexample to the claim as stated): on a device whose only active
sector fails CRC validation, the bootstrap payload write to sector 0 carries
the stale staging bytes `5, 0, ..., 0` — not an all-zero payload. -/
theorem load_bootstrap_zero_payload_cex :
    (eeprom_sector_load crcDemo memActiveBadCrc (List.replicate 66 0) 66).trace =
      eeprom_all_sectors_clear_trace ++
        [⟨sector_status_address 0, [SECTOR_ACTIVE]⟩,
         ⟨sector_address 0, 5 :: List.replicate 65 0⟩] ∧
    5 :: List.replicate 65 0 ≠ List.replicate 66 0 := by
  decide

/-- C5 (amended): on the valid-sector path `eeprom_sector_load` overwrites
the first `size` bytes of the caller's buffer with the returned sector's
payload; on the bootstrap path (including a fresh device) the caller's
buffer is left completely untouched. -/
theorem load_out_overwrite_spec (crc16 : List Nat → Nat) (mem : Mem)
    (buffer : List Nat) (size : Nat) (_h2 : 2 ≤ size) (_h66 : size ≤ RECORD_SIZE) :
    (∀ i, i < NUMBER_OF_SECTORS → slotFound crc16 mem i size →
      (∀ k < i, ¬ slotFound crc16 mem k size) →
      (eeprom_sector_load crc16 mem buffer size).out =
        eeprom_read mem (sector_address i) size ++ buffer.drop size) ∧
    ((∀ i < NUMBER_OF_SECTORS, ¬ slotFound crc16 mem i size) →
      (eeprom_sector_load crc16 mem buffer size).out = buffer) := by
  constructor
  · intro i hi hfound hmin
    rw [load_found_spec crc16 mem buffer size i hi hfound hmin]
    show (slotRecord mem i size).take size ++ buffer.drop size = _
    unfold slotRecord
    rw [List.take_left' (eeprom_read_length mem (sector_address i) size)]
  · intro h
    rw [load_none_spec crc16 mem buffer size h]

/-- C5 (counterexample to the claim as stated): on a fresh device (all bytes
0xFF, no active sector) `eeprom_sector_load` returns 0 but does not write a
single byte of the caller's buffer: the buffer keeps its prior contents
(66 bytes of 7) instead of holding 66 zero bytes. -/
theorem load_bootstrap_out_untouched_cex :
    (eeprom_sector_load crcDemo (fun _ => 0xFF) (List.replicate 66 7) 66).ret = 0 ∧
    (eeprom_sector_load crcDemo (fun _ => 0xFF) (List.replicate 66 7) 66).out =
      List.replicate 66 7 ∧
    List.replicate 66 (7 : Nat) ≠ List.replicate 66 0 := by
  decide

/-! ### CRC coverage: C6 -/

/-- C6 (amended): the load-time CRC check recomputes the CRC over the first
`size − 2` bytes of the staging record and compares it against the record's
`crc` field at byte offset 64/65; at the declared record size
(`size = RECORD_SIZE = 66`, the only size the `struct_data_t` contract
admits) that field is exactly the trailing 2 bytes of the `size`-byte blob
read from the sector, so validation succeeds iff the recomputed CRC matches
the blob's trailing 2 bytes. -/
theorem crc_check_at_record_size (crc16 : List Nat → Nat) (mem : Mem) (i : Nat) :
    slotValid crc16 mem i RECORD_SIZE ↔
      crc16 ((eeprom_read mem (sector_address i) RECORD_SIZE).take (RECORD_SIZE - 2)) =
        (eeprom_read mem (sector_address i) RECORD_SIZE).getD 64 0 +
          256 * (eeprom_read mem (sector_address i) RECORD_SIZE).getD 65 0 := by
  unfold slotValid struct_crc slotRecord
  simp

/-- A device whose sector 0 is active with the 4-byte blob `1, 2, 4, 0`,
whose trailing 2 bytes encode `crcDemo [1, 2] = 4`. -/
def memTrailingMatch : Mem := eeprom_write (eeprom_write (fun _ => 0) 0 [1]) 2 [1, 2, 4, 0]

/-- C6 (counterexample to the claim as stated): at `size = 4` the blob's
trailing 2 bytes match the CRC recomputed over its first 2 bytes, yet the
check `eeprom_sector_load` performs fails (it compares against the staging
record's zero-initialized `crc` field at offset 64), and the load falls
through to the bootstrap path instead of returning sector 0. -/
theorem crc_check_trailing_bytes_cex :
    crcDemo ((eeprom_read memTrailingMatch (sector_address 0) 4).take 2) =
      (eeprom_read memTrailingMatch (sector_address 0) 4).getD 2 0 +
        256 * (eeprom_read memTrailingMatch (sector_address 0) 4).getD 3 0 ∧
    slotActive memTrailingMatch 0 ∧
    ¬ slotValid crcDemo memTrailingMatch 0 4 ∧
    (eeprom_sector_load crcDemo memTrailingMatch (List.replicate 4 9) 4).trace ≠ [] := by
  decide

/-! ### Round trip and the at-most-one-active invariant: C1 and C7 -/

/-- C1 (claim): for a record `B` of the declared record size whose trailing
2 bytes encode the CRC-16 of its first 64 bytes, and a device whose unique
active sector is `current_sector`, a write of `B` followed by a load yields
the payload bytes of `B` at the start of the out buffer and the load returns
the sector index the write returned. -/
theorem write_then_load_roundtrip (crc16 : List Nat → Nat) (mem : Mem)
    (B out : List Nat) (cs : Nat) (hcs : cs < NUMBER_OF_SECTORS)
    (hone : ∀ j < NUMBER_OF_SECTORS, slotActive mem j ↔ j = cs)
    (hlen : B.length = RECORD_SIZE)
    (hcrc : B.getD 64 0 + 256 * B.getD 65 0 = crc16 (B.take (RECORD_SIZE - 2))) :
    (eeprom_sector_load crc16
        (applyWrites mem (eeprom_sector_write B RECORD_SIZE cs).trace)
        out RECORD_SIZE).ret =
      (eeprom_sector_write B RECORD_SIZE cs).ret ∧
    (eeprom_sector_load crc16
        (applyWrites mem (eeprom_sector_write B RECORD_SIZE cs).trace)
        out RECORD_SIZE).out.take RECORD_SIZE = B := by
  have hnext4 : (cs + 1) % NUMBER_OF_SECTORS < NUMBER_OF_SECTORS :=
    Nat.mod_lt _ (by decide)
  have hstat := write_active_iff mem B RECORD_SIZE cs hcs (by decide) hone
  have hfound : slotFound crc16
      (applyWrites mem (eeprom_sector_write B RECORD_SIZE cs).trace)
      ((cs + 1) % NUMBER_OF_SECTORS) RECORD_SIZE :=
    ⟨(hstat _ hnext4).mpr rfl, write_valid_next crc16 mem B cs hlen hcrc⟩
  have hmin : ∀ k < (cs + 1) % NUMBER_OF_SECTORS,
      ¬ slotFound crc16 (applyWrites mem (eeprom_sector_write B RECORD_SIZE cs).trace)
        k RECORD_SIZE := by
    intro k hk hf
    have hk4 : k < NUMBER_OF_SECTORS := Nat.lt_trans hk hnext4
    have := (hstat k hk4).mp hf.1
    omega
  rw [load_found_spec crc16 _ out RECORD_SIZE _ hnext4 hfound hmin]
  refine ⟨rfl, ?_⟩
  show ((slotRecord _ _ RECORD_SIZE).take RECORD_SIZE ++ out.drop RECORD_SIZE).take
      RECORD_SIZE = B
  rw [slotRecord_full mem B cs hlen, List.take_of_length_le (Nat.le_of_eq hlen),
    List.take_left' hlen]

/-- C7 (claim): starting from a device whose unique active sector is
`current_sector`, after a successful `eeprom_sector_write` of a record with a
correct trailing CRC exactly one sector is active — `(current_sector+1) % N`
— and that sector's payload passes the CRC check. -/
theorem write_exactly_one_active (crc16 : List Nat → Nat) (mem : Mem)
    (B : List Nat) (cs : Nat) (hcs : cs < NUMBER_OF_SECTORS)
    (hone : ∀ j < NUMBER_OF_SECTORS, slotActive mem j ↔ j = cs)
    (hlen : B.length = RECORD_SIZE)
    (hcrc : B.getD 64 0 + 256 * B.getD 65 0 = crc16 (B.take (RECORD_SIZE - 2))) :
    (∀ j < NUMBER_OF_SECTORS,
      slotActive (applyWrites mem (eeprom_sector_write B RECORD_SIZE cs).trace) j ↔
        j = (cs + 1) % NUMBER_OF_SECTORS) ∧
    slotValid crc16 (applyWrites mem (eeprom_sector_write B RECORD_SIZE cs).trace)
      ((cs + 1) % NUMBER_OF_SECTORS) RECORD_SIZE :=
  ⟨write_active_iff mem B RECORD_SIZE cs hcs (by decide) hone,
   write_valid_next crc16 mem B cs hlen hcrc⟩

/-! ### Rotation and fairness: C8 -/

/-- The active-sector cursor after `k` successive `eeprom_sector_write` calls
with payloads `bufs 0, bufs 1, ...` and sizes `sizes 0, sizes 1, ...`,
threading each returned index into the next call, starting from `s0`. -/
def cursorAfter (bufs : Nat → List Nat) (sizes : Nat → Nat) (s0 : Nat) : Nat → Nat
  | 0 => s0
  | k + 1 => (eeprom_sector_write (bufs k) (sizes k) (cursorAfter bufs sizes s0 k)).ret

/-- How many of the first `K` writes of such a sequence target sector `j`
(the `i`-th write stores its payload in the sector index it returns). -/
def writesToSector (bufs : Nat → List Nat) (sizes : Nat → Nat) (s0 K j : Nat) : Nat :=
  (List.range K).countP
    (fun i => (eeprom_sector_write (bufs i) (sizes i) (cursorAfter bufs sizes s0 i)).ret == j)

theorem count_residue_window (s0 j K : Nat) (hj : j < 4) :
    (List.range (K + 4)).countP (fun i => (s0 + i + 1) % 4 == j) =
      (List.range K).countP (fun i => (s0 + i + 1) % 4 == j) + 1 := by
  have h4 : K + 4 = K + 1 + 1 + 1 + 1 := by omega
  rw [h4]
  simp only [List.range_succ, List.countP_append, List.countP_cons, List.countP_nil,
    beq_iff_eq]
  split_ifs <;> omega

theorem count_residue_formula (s0 j K : Nat) (hj : j < 4) :
    (List.range K).countP (fun i => (s0 + i + 1) % 4 == j) = K / 4 ∨
    (List.range K).countP (fun i => (s0 + i + 1) % 4 == j) = (K + 3) / 4 := by
  induction K using Nat.strong_induction_on with
  | _ K ih =>
    by_cases hK : K < 4
    · interval_cases K <;>
        (simp only [List.range_succ, List.range_zero, List.countP_append,
          List.countP_cons, List.countP_nil, beq_iff_eq]
         first
          | (split_ifs <;> omega)
          | tauto)
    · have hK4 : K - 4 + 4 = K := by omega
      rw [← hK4, count_residue_window s0 j (K - 4) hj]
      rcases ih (K - 4) (by omega) with h | h
      · left
        rw [h]
        omega
      · right
        rw [h]
        omega

/-- C8 (claim): threading returned indices through a sequence of writes
starting from `s0 < N`, the index returned by the `i`-th write equals
`(s0 + i) % N`; consequently over the first `K` writes each sector `j`
receives `⌊K/N⌋` or `⌈K/N⌉` writes. -/
theorem write_rotation_fairness (bufs : Nat → List Nat) (sizes : Nat → Nat)
    (s0 : Nat) (hs0 : s0 < NUMBER_OF_SECTORS) :
    (∀ i, cursorAfter bufs sizes s0 i = (s0 + i) % NUMBER_OF_SECTORS) ∧
    (∀ K j, j < NUMBER_OF_SECTORS →
      writesToSector bufs sizes s0 K j = K / NUMBER_OF_SECTORS ∨
      writesToSector bufs sizes s0 K j =
        (K + NUMBER_OF_SECTORS - 1) / NUMBER_OF_SECTORS) := by
  have hret : ∀ (B : List Nat) (sz c : Nat),
      (eeprom_sector_write B sz c).ret = (c + 1) % NUMBER_OF_SECTORS := fun _ _ _ => rfl
  have hN : NUMBER_OF_SECTORS = 4 := rfl
  have hcursor : ∀ i, cursorAfter bufs sizes s0 i = (s0 + i) % NUMBER_OF_SECTORS := by
    intro i
    induction i with
    | zero =>
      show s0 = (s0 + 0) % NUMBER_OF_SECTORS
      rw [Nat.add_zero, Nat.mod_eq_of_lt hs0]
    | succ k ihk =>
      show (eeprom_sector_write (bufs k) (sizes k) (cursorAfter bufs sizes s0 k)).ret = _
      rw [hret, ihk, hN]
      omega
  refine ⟨hcursor, ?_⟩
  intro K j hj
  have hcount : writesToSector bufs sizes s0 K j =
      (List.range K).countP (fun i => (s0 + i + 1) % 4 == j) := by
    unfold writesToSector
    apply List.countP_congr
    intro i _
    rw [hret, hcursor i, hN]
    have : ((s0 + i) % 4 + 1) % 4 = (s0 + i + 1) % 4 := by omega
    rw [this]
  rw [hcount, hN]
  exact count_residue_formula s0 j K (hN ▸ hj)

/-! ### Clear operations: C9 -/

theorem getD_singleton_zero (n : Nat) : ([0] : List Nat).getD n 0 = 0 := by
  cases n <;> rfl

theorem clear_all_trace_eq :
    eeprom_all_sectors_clear_trace =
      [⟨0x0000, [0]⟩, ⟨0x0002, List.replicate 66 0⟩,
       ⟨0x1000, [0]⟩, ⟨0x1002, List.replicate 66 0⟩,
       ⟨0x2000, [0]⟩, ⟨0x2002, List.replicate 66 0⟩,
       ⟨0x3000, [0]⟩, ⟨0x3002, List.replicate 66 0⟩] := by
  rfl

theorem setting_sector_clear_status (mem : Mem) (j : Nat) (hj : j < 4) :
    setting_sector_clear mem j (sector_status_address j) = 0 := by
  rw [sector_status_address_eq j hj]
  unfold setting_sector_clear setting_sector_clear_trace
  rw [sector_status_address_eq j hj, sector_address_eq j hj]
  simp only [applyWrites, eeprom_write, RECORD_SIZE, List.length_replicate,
    List.length_cons, List.length_nil]
  split_ifs <;>
    first
      | (exfalso; omega)
      | simp only [SECTOR_INACTIVE, getD_replicate_zero, getD_singleton_zero]

theorem setting_sector_clear_payload (mem : Mem) (j t : Nat) (hj : j < 4) (ht : t < 66) :
    setting_sector_clear mem j (sector_address j + t) = 0 := by
  rw [sector_address_eq j hj]
  unfold setting_sector_clear setting_sector_clear_trace
  rw [sector_status_address_eq j hj, sector_address_eq j hj]
  simp only [applyWrites, eeprom_write, RECORD_SIZE, List.length_replicate,
    List.length_cons, List.length_nil]
  split_ifs <;>
    first
      | (exfalso; omega)
      | simp only [SECTOR_INACTIVE, getD_replicate_zero, getD_singleton_zero]

set_option maxRecDepth 4000 in
theorem eeprom_all_sectors_clear_status (mem : Mem) (j : Nat) (hj : j < 4) :
    eeprom_all_sectors_clear mem (sector_status_address j) = 0 := by
  rw [sector_status_address_eq j hj]
  unfold eeprom_all_sectors_clear
  rw [clear_all_trace_eq]
  simp only [applyWrites, eeprom_write, RECORD_SIZE, List.length_replicate,
    List.length_cons, List.length_nil]
  split_ifs <;>
    first
      | (exfalso; omega)
      | simp only [SECTOR_INACTIVE, getD_replicate_zero, getD_singleton_zero]

set_option maxRecDepth 4000 in
theorem eeprom_all_sectors_clear_payload (mem : Mem) (j t : Nat) (hj : j < 4)
    (ht : t < 66) :
    eeprom_all_sectors_clear mem (sector_address j + t) = 0 := by
  rw [sector_address_eq j hj]
  unfold eeprom_all_sectors_clear
  rw [clear_all_trace_eq]
  simp only [applyWrites, eeprom_write, RECORD_SIZE, List.length_replicate,
    List.length_cons, List.length_nil]
  split_ifs <;>
    first
      | (exfalso; omega)
      | simp only [SECTOR_INACTIVE, getD_replicate_zero, getD_singleton_zero]

/-- C9 (on the intended callee): `setting_sector_clear` leaves its sector's
status byte inactive and its `RECORD_SIZE` payload bytes zero, and
`eeprom_all_sectors_clear` — modelled as invoking `setting_sector_clear` for
every sector 0..N-1 in ascending order, the loop as written calls the
undeclared name `setting_system_state_clear` — leaves every sector's status
byte inactive and every payload byte zero. -/
theorem clear_operations_spec (mem : Mem) (j : Nat) (hj : j < NUMBER_OF_SECTORS) :
    setting_sector_clear mem j (sector_status_address j) = SECTOR_INACTIVE ∧
    (∀ t < RECORD_SIZE, setting_sector_clear mem j (sector_address j + t) = 0) ∧
    (∀ k < NUMBER_OF_SECTORS,
      eeprom_all_sectors_clear mem (sector_status_address k) = SECTOR_INACTIVE) ∧
    (∀ k < NUMBER_OF_SECTORS, ∀ t < RECORD_SIZE,
      eeprom_all_sectors_clear mem (sector_address k + t) = 0) :=
  ⟨setting_sector_clear_status mem j hj,
   fun t ht => setting_sector_clear_payload mem j t hj ht,
   fun k hk => eeprom_all_sectors_clear_status mem k hk,
   fun k hk t ht => eeprom_all_sectors_clear_payload mem k t hk ht⟩

/-! ### Concrete witnesses -/

/-- A device whose only active sector is 0 (status byte 1 at address 0). -/
def memActiveSlot0 : Mem := eeprom_write (fun _ => 0) 0 [1]

/-- A 66-byte record of 64 zero bytes followed by the little-endian encoding
of `crcDemo (replicate 64 0) = 1`. -/
def demoRecord : List Nat := List.replicate 64 0 ++ [1, 0]

/-- A device where sector 0 is active but fails the CRC check and sector 1 is
active with a valid record. -/
def memTwoActive : Mem :=
  eeprom_write
    (eeprom_write (eeprom_write (eeprom_write (fun _ => 0) 0 [1]) 2 [9]) 0x1000 [1])
    0x1002 demoRecord

theorem write_then_load_roundtrip_witness :
    (eeprom_sector_load crcDemo
        (applyWrites memActiveSlot0 (eeprom_sector_write demoRecord RECORD_SIZE 0).trace)
        (List.replicate 66 9) RECORD_SIZE).ret =
      (eeprom_sector_write demoRecord RECORD_SIZE 0).ret ∧
    (eeprom_sector_load crcDemo
        (applyWrites memActiveSlot0 (eeprom_sector_write demoRecord RECORD_SIZE 0).trace)
        (List.replicate 66 9) RECORD_SIZE).out.take RECORD_SIZE = demoRecord :=
  write_then_load_roundtrip crcDemo memActiveSlot0 demoRecord (List.replicate 66 9) 0
    (by decide) (by decide) (by decide) (by decide)

theorem write_issues_ordered_trace_witness :
    (eeprom_sector_write demoRecord 66 2).trace =
      [⟨sector_status_address 2, [SECTOR_INACTIVE]⟩,
       ⟨sector_status_address ((2 + 1) % NUMBER_OF_SECTORS), [SECTOR_ACTIVE]⟩,
       ⟨sector_address ((2 + 1) % NUMBER_OF_SECTORS), demoRecord.take 66⟩] ∧
    (demoRecord.take 66).length = 66 ∧
    (eeprom_sector_write demoRecord 66 2).ret = (2 + 1) % NUMBER_OF_SECTORS :=
  write_issues_ordered_trace demoRecord 66 2 (by decide) (by decide)

set_option maxRecDepth 100000 in
theorem load_returns_first_active_valid_witness :
    (eeprom_sector_load crcDemo memTwoActive (List.replicate 66 9) 66).ret = 1 ∧
    (eeprom_sector_load crcDemo memTwoActive (List.replicate 66 9) 66).out =
      eeprom_read memTwoActive (sector_address 1) 66 ++ (List.replicate 66 9).drop 66 :=
  load_returns_first_active_valid crcDemo memTwoActive (List.replicate 66 9) 66 1
    (by decide) (by decide) (by decide) (by decide) (by decide)

theorem load_bootstrap_writes_staging_witness :
    (eeprom_sector_load crcDemo memActiveBadCrc (List.replicate 66 0) 66).ret = 0 ∧
    (eeprom_sector_load crcDemo memActiveBadCrc (List.replicate 66 0) 66).trace =
      eeprom_all_sectors_clear_trace ++
        [⟨sector_status_address 0, [SECTOR_ACTIVE]⟩,
         ⟨sector_address 0, (bootstrapRecord memActiveBadCrc 66).take 66⟩] :=
  ⟨(load_bootstrap_writes_staging crcDemo memActiveBadCrc (List.replicate 66 0) 66
      (by decide) (by decide) (by decide)).1,
   (load_bootstrap_writes_staging crcDemo memActiveBadCrc (List.replicate 66 0) 66
      (by decide) (by decide) (by decide)).2.1⟩

theorem load_out_overwrite_spec_witness :
    (eeprom_sector_load crcDemo (fun _ => 0xFF) (List.replicate 66 7) 66).out =
      List.replicate 66 7 :=
  (load_out_overwrite_spec crcDemo (fun _ => 0xFF) (List.replicate 66 7) 66
    (by decide) (by decide)).2 (by decide)

theorem write_exactly_one_active_witness :
    (slotActive
        (applyWrites memActiveSlot0 (eeprom_sector_write demoRecord RECORD_SIZE 0).trace) 3 ↔
      3 = (0 + 1) % NUMBER_OF_SECTORS) ∧
    slotValid crcDemo
      (applyWrites memActiveSlot0 (eeprom_sector_write demoRecord RECORD_SIZE 0).trace)
      ((0 + 1) % NUMBER_OF_SECTORS) RECORD_SIZE :=
  ⟨(write_exactly_one_active crcDemo memActiveSlot0 demoRecord 0
      (by decide) (by decide) (by decide) (by decide)).1 3 (by decide),
   (write_exactly_one_active crcDemo memActiveSlot0 demoRecord 0
      (by decide) (by decide) (by decide) (by decide)).2⟩

theorem write_rotation_fairness_witness :
    cursorAfter (fun _ => demoRecord) (fun _ => 66) 1 5 = (1 + 5) % NUMBER_OF_SECTORS ∧
    (writesToSector (fun _ => demoRecord) (fun _ => 66) 1 9 2 = 9 / NUMBER_OF_SECTORS ∨
      writesToSector (fun _ => demoRecord) (fun _ => 66) 1 9 2 =
        (9 + NUMBER_OF_SECTORS - 1) / NUMBER_OF_SECTORS) :=
  ⟨(write_rotation_fairness (fun _ => demoRecord) (fun _ => 66) 1 (by decide)).1 5,
   (write_rotation_fairness (fun _ => demoRecord) (fun _ => 66) 1 (by decide)).2 9 2
      (by decide)⟩

theorem clear_operations_spec_witness :
    setting_sector_clear memActiveSlot0 2 (sector_status_address 2) = SECTOR_INACTIVE ∧
    eeprom_all_sectors_clear memActiveSlot0 (sector_address 3 + 65) = 0 :=
  ⟨(clear_operations_spec memActiveSlot0 2 (by decide)).1,
   (clear_operations_spec memActiveSlot0 2 (by decide)).2.2.2 3 (by decide) 65 (by decide)⟩

set_option maxRecDepth 100000 in
theorem load_valid_path_no_writes_witness :
    (eeprom_sector_load crcDemo memTwoActive (List.replicate 66 9) 66).trace = [] :=
  (load_valid_path_no_writes crcDemo memTwoActive (List.replicate 66 9) 66
    (by decide) (by decide) ⟨1, by decide, by decide⟩).1
